import Mathlib

/-!
# Verification of the Phoenix Panchanga engine numerical core

Shallow embedding of the repository's numerical core over exact rationals:

* `core/math/angles.py`        — angle normalization / unwrapping helpers
* `core/math/interpolation.py` — barycentric inverse Lagrange interpolation
* `core/math/solver.py`        — hybrid bracket / Newton / bisection root solver
* `vedic/panchanga/temporal.py`— continuous tithi / nakshatra / yoga maps
* `vedic/panchanga/finder.py`  — event finder driving the solver
* `infrastructure/astronomy/swiss/provider.py` — cache-key quantization

Python floats are modelled by `ℚ` (exact arithmetic); Python's `%` on
numbers is floor-style modulo, modelled by `pymod`.  Fallible operations
(`raise`) are modelled with `Except`.  Loops are modelled by structural
recursion; the one `while` loop with an input-dependent trip count
(`bracket_root`'s forward scan) receives fuel computed from its inputs
that dominates its trip count, and the one loop with no termination
guarantee at all (`extend_angle_range`) returns `Option`, `none` standing
for non-termination.
-/

/-- Python's `a % p` (floor-style modulo: result has the sign of `p`).
For `p ≠ 0` this is exactly `a - p * ⌊a / p⌋`. -/
def pymod (a p : ℚ) : ℚ := a - p * (⌊a / p⌋ : ℚ)

/-- Python's `round(q)` — round half to even (banker's rounding). -/
def pyRound (q : ℚ) : ℤ :=
  let n := ⌊q⌋
  let f := q - (n : ℚ)
  if f < 1/2 then n
  else if 1/2 < f then n + 1
  else if n % 2 = 0 then n else n + 1

/-- Python's `round(q, n)` for `n ≥ 0`: round to `n` decimal digits. -/
def round_to (n : ℕ) (q : ℚ) : ℚ := (pyRound (q * 10 ^ n) : ℚ) / 10 ^ n

/-! ## `core/math/angles.py` -/

/-- `normalize_angle(angle, start=0.0, period=360.0)`:
`(a - s) % p + s`. -/
def normalize_angle (angle start period : ℚ) : ℚ :=
  pymod (angle - start) period + start

/-- Loop body chain of `unwrap_angles`: given the previous output element,
emit `prev + ((a - prev + half) % period - half)` for each input. -/
def unwrap_angles_go (period half : ℚ) : ℚ → List ℚ → List ℚ
  | _, [] => []
  | prev, a :: rest =>
    let nxt := prev + (pymod (a - prev + half) period - half)
    nxt :: unwrap_angles_go period half nxt rest

/-- `unwrap_angles(angles, period=360.0)`. -/
def unwrap_angles (angles : List ℚ) (period : ℚ) : List ℚ :=
  match angles with
  | [] => []
  | a0 :: rest => a0 :: unwrap_angles_go period (period / 2) a0 rest

/-- `unwrap_relative(val, target, period=360.0)` from `core/math/angles.py`:
`target + ((val - target + period/2) % period - period/2)`. -/
def unwrap_relative (val target period : ℚ) : ℚ :=
  target + (pymod (val - target + period / 2) period - period / 2)

/-- Python `max(list)` for the nonempty lists this code applies it to. -/
def list_max : List ℚ → ℚ
  | [] => 0
  | a :: as' => as'.foldl max a

/-- Python `min(list)` for the nonempty lists this code applies it to. -/
def list_min : List ℚ → ℚ
  | [] => 0
  | a :: as' => as'.foldl min a

/-- The `while max(ext) - min(ext) < span: ext += [a + period for a in base]`
loop of `extend_angle_range`, with fuel; `none` models non-termination
(the source has no bound on this loop). -/
def extend_angle_range_loop (base : List ℚ) (span period : ℚ) :
    ℕ → List ℚ → Option (List ℚ)
  | 0, _ => none
  | fuel + 1, ext =>
    if list_max ext - list_min ext < span then
      extend_angle_range_loop base span period fuel (ext ++ base.map (· + period))
    else
      some ext

/-- `extend_angle_range(angles, span=360.0, period=360.0)`; `none` models a
run of the source loop that has not finished within `fuel` iterations. -/
def extend_angle_range (angles : List ℚ) (span period : ℚ) (fuel : ℕ) :
    Option (List ℚ) :=
  match angles with
  | [] => some []
  | base => extend_angle_range_loop base span period fuel base

/-! ## `vedic/panchanga/temporal.py` -/

/-- `norm_deg(d)`: `d % 360`, then add 360 if negative. -/
def norm_deg (d : ℚ) : ℚ :=
  let d' := pymod d 360
  if d' < 0 then d' + 360 else d'

/-- `tithi_continuous(moon_lon, moon_spd, sun_lon, sun_spd)`. -/
def tithi_continuous (moon_lon moon_spd sun_lon sun_spd : ℚ) : ℚ × ℚ :=
  let dist := norm_deg (moon_lon - sun_lon)
  let rel_speed := moon_spd - sun_spd
  (dist / 12, rel_speed / 12)

/-- `nakshatra_continuous(moon_lon, moon_spd)`. -/
def nakshatra_continuous (moon_lon moon_spd : ℚ) : ℚ × ℚ :=
  let scale : ℚ := 27 / 360
  (norm_deg moon_lon * scale, moon_spd * scale)

/-- `yoga_continuous(moon_lon, moon_spd, sun_lon, sun_spd)`. -/
def yoga_continuous (moon_lon moon_spd sun_lon sun_spd : ℚ) : ℚ × ℚ :=
  let scale : ℚ := 27 / 360
  (norm_deg (moon_lon + sun_lon) * scale, (moon_spd + sun_spd) * scale)

/-- `unwrap_relative(val, target, period=360.0)` from
`vedic/panchanga/temporal.py` (the parallel implementation; same formula). -/
def unwrap_relative_temporal (val target period : ℚ) : ℚ :=
  target + (pymod (val - target + period / 2) period - period / 2)

/-! ## Basic facts about `pymod` -/

theorem pymod_eq_mul_fract (a p : ℚ) (hp : p ≠ 0) :
    pymod a p = p * Int.fract (a / p) := by
  unfold pymod Int.fract
  field_simp

theorem pymod_nonneg (a p : ℚ) (hp : 0 < p) : 0 ≤ pymod a p := by
  rw [pymod_eq_mul_fract a p hp.ne']
  exact mul_nonneg hp.le (Int.fract_nonneg _)

theorem pymod_lt (a p : ℚ) (hp : 0 < p) : pymod a p < p := by
  rw [pymod_eq_mul_fract a p hp.ne']
  calc p * Int.fract (a / p) < p * 1 :=
        (mul_lt_mul_left hp).mpr (Int.fract_lt_one _)
    _ = p := mul_one p

/-! ## `core/math/solver.py` -/

/-- `f(jd) -> (value, speed)`. -/
abbrev ValueSpeedFn := ℚ → ℚ × ℚ

/-- `SolveResult` dataclass. -/
structure SolveResult where
  root_jd : ℚ
  method : String
  iterations : ℕ
  bracket : Option (ℚ × ℚ)
deriving DecidableEq, Repr

/-- The solver's exception hierarchy (`ValueError`, `NoBracketError`,
`NonConvergenceError`). -/
inductive SolverError where
  | valueError
  | noBracket
  | nonConvergence
deriving DecidableEq, Repr

deriving instance DecidableEq for Except

/-- `_sign(x)`. -/
def _sign (x : ℚ) : ℤ :=
  if x > 0 then 1 else if x < 0 then -1 else 0

/-- The forward-scan `while x < end_jd` loop of `bracket_root`.  `sa` is the
sign of `f` at `x`.  The fuel passed by `bracket_root` strictly dominates the
loop's trip count, so the fuel-exhaustion branch (which returns the same
error as normal loop exit) is never reached. -/
def bracket_scan (f : ValueSpeedFn) (end_jd step : ℚ) :
    ℕ → ℚ → ℤ → Except SolverError (ℚ × ℚ)
  | 0, _, _ => .error .noBracket
  | fuel + 1, x, sa =>
    if x < end_jd then
      let nx := min (x + step) end_jd
      let sb := _sign (f nx).1
      if sb = 0 then .ok (nx, nx)
      else if sa ≠ sb then .ok (x, nx)
      else bracket_scan f end_jd step fuel nx sb
    else .error .noBracket

/-- `bracket_root(f, start_jd, end_jd, step_days)`. -/
def bracket_root (f : ValueSpeedFn) (start_jd end_jd step : ℚ) :
    Except SolverError (ℚ × ℚ) :=
  if end_jd ≤ start_jd then .error .valueError
  else if step ≤ 0 then .error .valueError
  else
    let sa := _sign (f start_jd).1
    if sa = 0 then .ok (start_jd, start_jd)
    else
      bracket_scan f end_jd step ((⌈(end_jd - start_jd) / step⌉).toNat + 1)
        start_jd sa

/-- The `while it < max_iter and (hi - lo) > tol_days` loop of `bisection`;
fuel counts the remaining iterations, `it` the performed ones, and `slo` is
the sign of `f` at `lo` (invariant under both updates). -/
def bisect_loop (f : ValueSpeedFn) (tol a b : ℚ) :
    ℕ → ℕ → ℚ → ℚ → ℤ → SolveResult
  | 0, it, lo, hi, _ => ⟨(lo + hi) / 2, "bisection", it, some (a, b)⟩
  | fuel + 1, it, lo, hi, slo =>
    if tol < hi - lo then
      let mid := (lo + hi) / 2
      let sm := _sign (f mid).1
      if sm = 0 then ⟨mid, "bisection", it + 1, some (a, b)⟩
      else if sm = slo then bisect_loop f tol a b fuel (it + 1) mid hi slo
      else bisect_loop f tol a b fuel (it + 1) lo mid slo
    else ⟨(lo + hi) / 2, "bisection", it, some (a, b)⟩

/-- `bisection(f, a, b, tol_days, max_iter=80)`. -/
def bisection (f : ValueSpeedFn) (a0 b0 tol : ℚ) (max_iter : ℕ) :
    Except SolverError SolveResult :=
  let a := min a0 b0
  let b := max a0 b0
  let sa := _sign (f a).1
  let sb := _sign (f b).1
  if sa = 0 then .ok ⟨a, "bisection", 0, some (a, b)⟩
  else if sb = 0 then .ok ⟨b, "bisection", 0, some (a, b)⟩
  else if sa = sb then .error .noBracket
  else .ok (bisect_loop f tol a b max_iter 0 a b sa)

/-- The `for it in range(1, max_iter + 1)` loop of `newton_speed_assisted`.
`ab` is the (sorted) clamping interval, `br` the original `bracket` argument
stored in results.  Fuel exhaustion is the loop running out of iterations
(`NonConvergenceError`). -/
def newton_loop (f : ValueSpeedFn) (ab br : Option (ℚ × ℚ))
    (tol min_speed : ℚ) : ℕ → ℕ → ℚ → Except SolverError SolveResult
  | 0, _, _ => .error .nonConvergence
  | fuel + 1, it, x =>
    let v := (f x).1
    let spd := (f x).2
    if |v| ≤ 1 / 10 ^ 14 then .ok ⟨x, "newton", it, br⟩
    else if |spd| < min_speed then .error .nonConvergence
    else
      let nx := x - v / spd
      if |nx - x| ≤ tol then .ok ⟨nx, "newton", it, br⟩
      else
        let nx' := match ab with
          | none => nx
          | some (a, b) => if nx < a then a else if b < nx then b else nx
        newton_loop f ab br tol min_speed fuel (it + 1) nx'

/-- `newton_speed_assisted(f, x0, bracket, tol_days, max_iter=20,
min_speed=1e-10)`. -/
def newton_speed_assisted (f : ValueSpeedFn) (x0 : ℚ) (bracket : Option (ℚ × ℚ))
    (tol min_speed : ℚ) (max_iter : ℕ) : Except SolverError SolveResult :=
  match bracket with
  | none => newton_loop f none none tol min_speed max_iter 1 x0
  | some (a0, b0) =>
    let a := min a0 b0
    let b := max a0 b0
    let x := if x0 < a then a else if b < x0 then b else x0
    newton_loop f (some (a, b)) (some (a0, b0)) tol min_speed max_iter 1 x

/-- `solve_root(f, start_jd, end_jd, accuracy_seconds=0.5,
scan_step_days=1/24, newton_max_iter=20, bisection_max_iter=80,
min_speed=1e-10)`: the hybrid driver. -/
def solve_root (f : ValueSpeedFn) (start_jd end_jd accuracy_seconds scan_step_days : ℚ)
    (newton_max_iter bisection_max_iter : ℕ) (min_speed : ℚ) :
    Except SolverError SolveResult :=
  let tol := accuracy_seconds / 86400
  match bracket_root f start_jd end_jd scan_step_days with
  | .error e => .error e
  | .ok (a, b) =>
    if a = b then .ok ⟨a, "bracket_hit", 0, some (a, b)⟩
    else
      match newton_speed_assisted f ((a + b) / 2) (some (a, b)) tol min_speed
          newton_max_iter with
      | .ok res => .ok ⟨res.root_jd, "newton", res.iterations, some (a, b)⟩
      | .error .nonConvergence => bisection f a b tol bisection_max_iter
      | .error .noBracket => bisection f a b tol bisection_max_iter
      | .error e => .error e

/-! ## `vedic/panchanga/finder.py` -/

/-- Body id of the Sun (`domain/enums.py`, `SUN = 0`). -/
def SUN : ℕ := 0

/-- Body id of the Moon (`domain/enums.py`, `MOON = 1`). -/
def MOON : ℕ := 1

/-- The ephemeris provider as seen by the finder:
`planet_lon_speed(jd, body) -> (lon, speed)`. -/
abbrev Provider := ℚ → ℕ → ℚ × ℚ

/-- `_unwrap_cycle(val, target, period)`. -/
def unwrap_cycle (val target period : ℚ) : ℚ :=
  if period ≤ target ∧ val < period / 2 then val + period else val

/-- `SearchParams` dataclass (defaults `accuracy_seconds=0.1`,
`scan_step_days=1/12`, `max_days_ahead=1.5`). -/
structure SearchParams where
  accuracy_seconds : ℚ
  scan_step_days : ℚ
  max_days_ahead : ℚ
deriving DecidableEq, Repr

/-- `PanchangaFinder.next_tithi_end(start_jd, params=None)`. -/
def next_tithi_end (provider : Provider) (start_jd : ℚ)
    (params : Option SearchParams) : Except SolverError SolveResult :=
  let p := params.getD ⟨1/10, 1/12, 3/2⟩
  let s0 := provider start_jd SUN
  let m0 := provider start_jd MOON
  let curr := (tithi_continuous m0.1 m0.2 s0.1 s0.2).1
  let target : ℚ := (⌊curr⌋ : ℚ) + 1
  let period : ℚ := 30
  let f : ValueSpeedFn := fun jd =>
    let s := provider jd SUN
    let m := provider jd MOON
    let vs := tithi_continuous m.1 m.2 s.1 s.2
    (unwrap_cycle vs.1 target period - target, vs.2)
  solve_root f start_jd (start_jd + p.max_days_ahead) p.accuracy_seconds
    p.scan_step_days 20 80 (1/10^10)

/-- `PanchangaFinder.next_nakshatra_end(start_jd, params=None)`. -/
def next_nakshatra_end (provider : Provider) (start_jd : ℚ)
    (params : Option SearchParams) : Except SolverError SolveResult :=
  let p := params.getD ⟨1/10, 1/12, 13/10⟩
  let m0 := provider start_jd MOON
  let curr := (nakshatra_continuous m0.1 m0.2).1
  let target : ℚ := (⌊curr⌋ : ℚ) + 1
  let period : ℚ := 27
  let f : ValueSpeedFn := fun jd =>
    let m := provider jd MOON
    let vs := nakshatra_continuous m.1 m.2
    (unwrap_cycle vs.1 target period - target, vs.2)
  solve_root f start_jd (start_jd + p.max_days_ahead) p.accuracy_seconds
    p.scan_step_days 20 80 (1/10^10)

/-- `PanchangaFinder.next_yoga_end(start_jd, params=None)`. -/
def next_yoga_end (provider : Provider) (start_jd : ℚ)
    (params : Option SearchParams) : Except SolverError SolveResult :=
  let p := params.getD ⟨1/10, 1/12, 13/10⟩
  let s0 := provider start_jd SUN
  let m0 := provider start_jd MOON
  let curr := (yoga_continuous m0.1 m0.2 s0.1 s0.2).1
  let target : ℚ := (⌊curr⌋ : ℚ) + 1
  let period : ℚ := 27
  let f : ValueSpeedFn := fun jd =>
    let s := provider jd SUN
    let m := provider jd MOON
    let vs := yoga_continuous m.1 m.2 s.1 s.2
    (unwrap_cycle vs.1 target period - target, vs.2)
  solve_root f start_jd (start_jd + p.max_days_ahead) p.accuracy_seconds
    p.scan_step_days 20 80 (1/10^10)

/-! ## `core/math/interpolation.py` -/

/-- The exceptions of `inverse_lagrange` (`ValueError` for malformed or
duplicate input, `ZeroDivisionError` for the ill-conditioned denominator). -/
inductive InterpError where
  | valueError
  | zeroDivisionError
deriving DecidableEq, Repr

/-- Stable insertion into a key-sorted list (equal keys keep order). -/
def insert_by_key (key : ℕ → ℚ) (i : ℕ) : List ℕ → List ℕ
  | [] => [i]
  | j :: rest =>
    if key i < key j then i :: j :: rest else j :: insert_by_key key i rest

/-- Stable sort by key — models Python's stable `sorted(range(n), key=…)`
used for nearest-node selection. -/
def sort_by_key (key : ℕ → ℚ) (l : List ℕ) : List ℕ :=
  l.foldl (fun acc i => insert_by_key key i acc) []

/-- The barycentric weight denominator `Π_{j≠i} (ys[i] - ys[j])`
(the `denom` accumulated in source order; `w_i = 1 / denom`). -/
def lagrange_weight_denom (ys : List ℚ) (i : ℕ) : ℚ :=
  ((List.range ys.length).filter (fun j => j ≠ i)).foldl
    (fun acc j => acc * (ys.getD i 0 - ys.getD j 0)) 1

/-- `den = Σ_i w_i / (y_target - y_i)`. -/
def bary_den (ys : List ℚ) (yt : ℚ) : ℚ :=
  ((List.range ys.length).map (fun i =>
    (1 / lagrange_weight_denom ys i) / (yt - ys.getD i 0))).sum

/-- `num = Σ_i (w_i / (y_target - y_i)) * x_i`. -/
def bary_num (xs ys : List ℚ) (yt : ℚ) : ℚ :=
  ((List.range ys.length).map (fun i =>
    (1 / lagrange_weight_denom ys i) / (yt - ys.getD i 0) * xs.getD i 0)).sum

/-- The duplicate / near-duplicate y detection
(`for i … for j in range(i+1, n) … |ys[i] - ys[j]| ≤ eps`). -/
def has_near_duplicate (ys : List ℚ) (eps : ℚ) : Bool :=
  (List.range ys.length).any (fun i =>
    (List.range ys.length).any (fun j =>
      decide (i < j) && decide (|ys.getD i 0 - ys.getD j 0| ≤ eps)))

/-- `inverse_lagrange(x_list, y_list, y_target, max_points=5, eps=1e-10)`.
Once the duplicate check has passed (with `eps ≥ 0`), every weight
denominator is nonzero, so Lean's total `1 / denom` agrees with Python's
division here. -/
def inverse_lagrange (x_list y_list : List ℚ) (y_target : ℚ)
    (max_points : ℕ) (eps : ℚ) : Except InterpError ℚ :=
  if x_list.length ≠ y_list.length then .error .valueError
  else if x_list.length < 2 then .error .valueError
  else
    let k := max 2 max_points
    let n0 := x_list.length
    let sel : List ℚ × List ℚ :=
      if k < n0 then
        let idx :=
          (sort_by_key (fun i => |y_list.getD i 0 - y_target|) (List.range n0)).take k
        (idx.map (fun i => x_list.getD i 0), idx.map (fun i => y_list.getD i 0))
      else (x_list, y_list)
    let xs := sel.1
    let ys := sel.2
    match (xs.zip ys).find? (fun p => decide (|y_target - p.2| ≤ eps)) with
    | some p => .ok p.1
    | none =>
      if has_near_duplicate ys eps then .error .valueError
      else
        let den := bary_den ys y_target
        if |den| ≤ eps then .error .zeroDivisionError
        else .ok (bary_num xs ys y_target / den)

/-! ## `infrastructure/astronomy/swiss/provider.py` — cache keys -/

/-- `EphemerisProvider._jd_key(jd_ut, ndigits=9)`. -/
def jd_key (jd : ℚ) : ℚ := round_to 9 jd

/-- The `("calc_ut", sig, q(jd), body, flags)` key of `planet_lon_speed`. -/
def calc_ut_key {σ : Type} (sig : σ) (jd : ℚ) (body flags : ℤ) :
    String × σ × ℚ × ℤ × ℤ :=
  ("calc_ut", sig, jd_key jd, body, flags)

/-- The `("ayan", sig, q(jd), flags)` key of `ayanamsa`. -/
def ayan_key {σ : Type} (sig : σ) (jd : ℚ) (flags : ℤ) : String × σ × ℚ × ℤ :=
  ("ayan", sig, jd_key jd, flags)

/-- The `("houses_trop", sig, q(jd), round(lat, 8), round(lon, 8), hsys)`
key of the tropical-derived branch of `houses`. -/
def houses_trop_key {σ : Type} (sig : σ) (jd lat lon : ℚ) (hsys : ℕ) :
    String × σ × ℚ × ℚ × ℚ × ℕ :=
  ("houses_trop", sig, jd_key jd, round_to 8 lat, round_to 8 lon, hsys)

/-- The `("houses_sid", sig, q(jd), round(lat, 8), round(lon, 8), hsys,
flags)` key of the sidereal-native branch of `houses`. -/
def houses_sid_key {σ : Type} (sig : σ) (jd lat lon : ℚ) (hsys : ℕ) (flags : ℤ) :
    String × σ × ℚ × ℚ × ℚ × ℕ × ℤ :=
  ("houses_sid", sig, jd_key jd, round_to 8 lat, round_to 8 lon, hsys, flags)

/-- The PYJHORA_DRIK `rise_set` key: geography is
`(round(lon, 6), round(lat, 6), 0.0)`. -/
def rise_set_drik_key {σ : Type} (sig : σ) (jd : ℚ) (body : ℤ) (rise : Bool)
    (ephe rsmi : ℤ) (lon lat : ℚ) :
    String × σ × ℚ × ℤ × Bool × ℤ × ℤ × (ℚ × ℚ × ℚ) :=
  ("rise_set", sig, round_to 9 jd, body, rise, ephe, rsmi,
    (round_to 6 lon, round_to 6 lat, 0))

/-- The DISC_POLICY `rise_set` key: geography is
`(round(lon, 6), round(lat, 6), round(alt, 1))` plus `round(p, 2)`,
`round(t, 2)`. -/
def rise_set_disc_key {σ : Type} (sig : σ) (jd : ℚ) (body : ℤ) (rise : Bool)
    (ephe rsmi : ℤ) (lon lat alt p t : ℚ) :
    String × σ × ℚ × ℤ × Bool × ℤ × ℤ × (ℚ × ℚ × ℚ) × ℚ × ℚ :=
  ("rise_set", sig, round_to 9 jd, body, rise, ephe, rsmi,
    (round_to 6 lon, round_to 6 lat, round_to 1 alt), round_to 2 p, round_to 2 t)

/-! ## `nakshatra_pada_from_longitude` (absent from the source tree) -/

/-- Modelled from the spec: the constant `ONE_STAR = 360/27` that
`vedic/panchanga/finder.py` imports from `vedic/panchanga/temporal.py`;
no definition for it appears in the source tree. -/
def ONE_STAR : ℚ := 360 / 27

/-- Modelled from the spec: the constant `ONE_PADA = 360/108` named by the
spec next to `nakshatra_pada_from_longitude`; absent from the source tree. -/
def ONE_PADA : ℚ := 360 / 108

/-- Modelled from the spec: `nakshatra_pada_from_longitude(lon) →
(nak_no ∈ 1..27, pada_no ∈ 1..4, remainder_deg)` with `ONE_STAR = 360/27`
and `ONE_PADA = 360/108`, imported by `vedic/panchanga/finder.py` from
`vedic/panchanga/temporal.py` but defined nowhere in the source tree.
The longitude is normalized to `[0, 360)` and cut into 27 stars of
`ONE_STAR` degrees, each split into 4 padas of `ONE_PADA` degrees;
`remainder_deg` is the longitude already covered inside the current star. -/
def nakshatra_pada_from_longitude (lon : ℚ) : ℤ × ℤ × ℚ :=
  let l := norm_deg lon
  let nak_no := ⌊l / ONE_STAR⌋ + 1
  let pada_no := ⌊l / ONE_PADA⌋ % 4 + 1
  (nak_no, pada_no, l - (nak_no - 1) * ONE_STAR)

/-! ## Helper lemmas for the angle layer -/

theorem foldl_max_le (c : ℚ) :
    ∀ (l : List ℚ) (a : ℚ), a ≤ c → (∀ x ∈ l, x ≤ c) → l.foldl max a ≤ c := by
  intro l
  induction l with
  | nil => intro a ha _; simpa using ha
  | cons y ys ih =>
    intro a ha hall
    simp only [List.foldl_cons]
    exact ih (max a y) (max_le ha (hall y (by simp)))
      (fun x hx => hall x (by simp [hx]))

theorem le_foldl_min (c : ℚ) :
    ∀ (l : List ℚ) (a : ℚ), c ≤ a → (∀ x ∈ l, c ≤ x) → c ≤ l.foldl min a := by
  intro l
  induction l with
  | nil => intro a ha _; simpa using ha
  | cons y ys ih =>
    intro a ha hall
    simp only [List.foldl_cons]
    exact ih (min a y) (le_min ha (hall y (by simp)))
      (fun x hx => hall x (by simp [hx]))

theorem list_max_le {l : List ℚ} {c : ℚ} (h : ∀ x ∈ l, x ≤ c) (hne : l ≠ []) :
    list_max l ≤ c := by
  match l with
  | [] => exact absurd rfl hne
  | a :: as' =>
    exact foldl_max_le c as' a (h a (by simp)) (fun x hx => h x (by simp [hx]))

theorem le_list_min {l : List ℚ} {c : ℚ} (h : ∀ x ∈ l, c ≤ x) (hne : l ≠ []) :
    c ≤ list_min l := by
  match l with
  | [] => exact absurd rfl hne
  | a :: as' =>
    exact le_foldl_min c as' a (h a (by simp)) (fun x hx => h x (by simp [hx]))

/-- On the input `angles = [0]`, `span = 720`, `period = 360`, every list the
`extend_angle_range` loop ever holds has all elements in `[0, 360]`, so the
loop guard `max - min < 720` stays true and the loop never exits. -/
theorem extend_loop_stuck :
    ∀ (fuel : ℕ) (ext : List ℚ), ext ≠ [] → (∀ x ∈ ext, 0 ≤ x ∧ x ≤ 360) →
      extend_angle_range_loop [0] 720 360 fuel ext = none := by
  intro fuel
  induction fuel with
  | zero => intro ext _ _; rfl
  | succ n ih =>
    intro ext hne hbound
    have hmax : list_max ext ≤ 360 := list_max_le (fun x hx => (hbound x hx).2) hne
    have hmin : (0 : ℚ) ≤ list_min ext := le_list_min (fun x hx => (hbound x hx).1) hne
    have hguard : list_max ext - list_min ext < 720 := by linarith
    simp only [extend_angle_range_loop, if_pos hguard]
    refine ih _ (by simp [hne]) ?_
    intro x hx
    rcases List.mem_append.mp hx with hx | hx
    · exact hbound x hx
    · simp only [List.map_cons, List.map_nil, List.mem_singleton] at hx
      norm_num [hx]

/-- **C9.** The claim says all four angle operations are total; in fact the
`extend_angle_range` loop never terminates on `angles = [0]`, `span = 720`,
`period = 360` (the loop re-appends the same `base + period` values, so the
covered span never grows past `period`): for every iteration budget the
fuelled loop fails to finish. -/
theorem extend_angle_range_diverges :
    ∀ fuel : ℕ, extend_angle_range [0] 720 360 fuel = none := by
  intro fuel
  show extend_angle_range_loop [0] 720 360 fuel [0] = none
  exact extend_loop_stuck fuel [0] (by simp) (by norm_num)

/-- **C10.** On empty input the sequence operations return the empty list:
`unwrap_angles([])` is `[]` for every period, and
`extend_angle_range([], span, period)` is `[]` (the loop is never entered)
for every span, period and iteration budget. -/
theorem empty_input_degrades :
    ∀ (period span : ℚ) (fuel : ℕ),
      unwrap_angles [] period = [] ∧ extend_angle_range [] span period fuel = some [] := by
  intro period span fuel
  exact ⟨rfl, rfl⟩

/-- **C6.** For every `v`, `t` and period `p > 0`, both implementations of
`unwrap_relative` (in `core/math/angles.py` and in
`vedic/panchanga/temporal.py`) return `r` with `|r - t| ≤ p/2` and with
`r - v` an exact integer multiple of `p`. -/
theorem unwrap_relative_spec (v t p : ℚ) (hp : 0 < p) :
    |unwrap_relative v t p - t| ≤ p / 2 ∧
    (∃ k : ℤ, unwrap_relative v t p - v = k * p) ∧
    |unwrap_relative_temporal v t p - t| ≤ p / 2 ∧
    (∃ k : ℤ, unwrap_relative_temporal v t p - v = k * p) := by
  have habs : |unwrap_relative v t p - t| ≤ p / 2 := by
    have h0 := pymod_nonneg (v - t + p / 2) p hp
    have h1 := pymod_lt (v - t + p / 2) p hp
    rw [abs_le]
    constructor <;> simp only [unwrap_relative] <;> linarith
  have hmul : ∃ k : ℤ, unwrap_relative v t p - v = k * p := by
    refine ⟨-⌊(v - t + p / 2) / p⌋, ?_⟩
    simp only [unwrap_relative, pymod]
    push_cast
    ring
  exact ⟨habs, hmul, habs, hmul⟩

/-- Closed witness for `unwrap_relative_spec` at `v = 361`, `t = 0`,
`p = 360`. -/
theorem unwrap_relative_spec_witness :
    |unwrap_relative 361 0 360 - 0| ≤ 360 / 2 ∧
    (∃ k : ℤ, unwrap_relative 361 0 360 - 361 = k * 360) ∧
    |unwrap_relative_temporal 361 0 360 - 0| ≤ 360 / 2 ∧
    (∃ k : ℤ, unwrap_relative_temporal 361 0 360 - 361 = k * 360) :=
  unwrap_relative_spec 361 0 360 (by norm_num)

/-! ## Range facts for the spec-modelled `nakshatra_pada_from_longitude` -/

theorem norm_deg_eq (d : ℚ) : norm_deg d = pymod d 360 := by
  unfold norm_deg
  rw [if_neg (not_lt.mpr (pymod_nonneg d 360 (by norm_num)))]

theorem norm_deg_nonneg (d : ℚ) : 0 ≤ norm_deg d := by
  rw [norm_deg_eq]; exact pymod_nonneg d 360 (by norm_num)

theorem norm_deg_lt (d : ℚ) : norm_deg d < 360 := by
  rw [norm_deg_eq]; exact pymod_lt d 360 (by norm_num)

/-- **C3.** The (spec-modelled) `nakshatra_pada_from_longitude` returns
`nak_no ∈ 1..27` and `pada_no ∈ 1..4` for every longitude. -/
theorem nakshatra_pada_from_longitude_range (lon : ℚ) :
    1 ≤ (nakshatra_pada_from_longitude lon).1 ∧
    (nakshatra_pada_from_longitude lon).1 ≤ 27 ∧
    1 ≤ (nakshatra_pada_from_longitude lon).2.1 ∧
    (nakshatra_pada_from_longitude lon).2.1 ≤ 4 := by
  have h0 := norm_deg_nonneg lon
  have h1 := norm_deg_lt lon
  have hstar : (0 : ℚ) < ONE_STAR := by norm_num [ONE_STAR]
  have hnak0 : 0 ≤ ⌊norm_deg lon / ONE_STAR⌋ :=
    Int.floor_nonneg.mpr (div_nonneg h0 hstar.le)
  have hnak1 : ⌊norm_deg lon / ONE_STAR⌋ < 27 := by
    apply Int.floor_lt.mpr
    rw [div_lt_iff₀ hstar]
    push_cast
    norm_num [ONE_STAR]
    linarith
  have hpada0 : 0 ≤ ⌊norm_deg lon / ONE_PADA⌋ % 4 :=
    Int.emod_nonneg _ (by norm_num)
  have hpada1 : ⌊norm_deg lon / ONE_PADA⌋ % 4 < 4 :=
    Int.emod_lt_of_pos _ (by norm_num)
  simp only [nakshatra_pada_from_longitude]
  refine ⟨by omega, by omega, by omega, by omega⟩

/-! ## Cache-key quantization (`provider.py`) -/

theorem pyRound_abs_sub_le (q : ℚ) : |(pyRound q : ℚ) - q| ≤ 1/2 := by
  have h0 : (⌊q⌋ : ℚ) ≤ q := Int.floor_le q
  have h1 : q < ⌊q⌋ + 1 := Int.lt_floor_add_one q
  simp only [pyRound]
  split_ifs with ha hb hc <;>
    · rw [abs_le]; push_cast; constructor <;> linarith

/-- `q` quantizes `x` at resolution `d`: it is within half a unit of `x`
and is an exact integer multiple of `d`. -/
def quantizes (d x q : ℚ) : Prop := |q - x| ≤ d / 2 ∧ ∃ k : ℤ, q = k * d

theorem round_to_quantizes (n : ℕ) (q : ℚ) :
    quantizes (1/10^n) q (round_to n q) := by
  constructor
  · have h := pyRound_abs_sub_le (q * 10 ^ n)
    have hp : (0:ℚ) < 10 ^ n := by positivity
    unfold round_to
    have heq : (pyRound (q * 10 ^ n) : ℚ) / 10 ^ n - q
        = ((pyRound (q * 10 ^ n) : ℚ) - q * 10 ^ n) / 10 ^ n := by
      field_simp
      ring
    rw [heq, abs_div, abs_of_pos hp]
    calc |(pyRound (q * 10 ^ n) : ℚ) - q * 10 ^ n| / 10 ^ n
        ≤ (1/2) / 10 ^ n := by gcongr
      _ = (1/10^n) / 2 := by ring
  · exact ⟨pyRound (q * 10 ^ n), by unfold round_to; ring⟩

/-- **C8 counterexample.** At latitude `0.1234567` the tropical-derived
houses cache key stores `round(lat, 8) = 0.1234567`, which is *not* the
6-decimal quantization `0.123457` the claim asserts. -/
theorem houses_key_not_six_decimals :
    (houses_trop_key () 0 (1234567/10^7 : ℚ) 0 0).2.2.2.1
      ≠ round_to 6 (1234567/10^7 : ℚ) := by
  norm_num [houses_trop_key, round_to, pyRound, jd_key]

/-- **C8 (amended).** Every Provider cache key quantizes its float fields:
`jd` to 9 decimals everywhere; the `rise_set` keys quantize geographic
longitude and latitude to 6 decimals, altitude to 1 decimal and
pressure/temperature to 2 decimals; but both houses keys quantize latitude
and longitude to **8** decimals, not 6. -/
theorem cache_key_quantization {σ : Type} (sig : σ) (jd lat lon alt p t : ℚ)
    (hsys : ℕ) (body flags ephe rsmi : ℤ) (rise : Bool) :
    quantizes (1/10^9) jd (calc_ut_key sig jd body flags).2.2.1 ∧
    quantizes (1/10^9) jd (ayan_key sig jd flags).2.2.1 ∧
    quantizes (1/10^9) jd (houses_trop_key sig jd lat lon hsys).2.2.1 ∧
    quantizes (1/10^8) lat (houses_trop_key sig jd lat lon hsys).2.2.2.1 ∧
    quantizes (1/10^8) lon (houses_trop_key sig jd lat lon hsys).2.2.2.2.1 ∧
    quantizes (1/10^8) lat (houses_sid_key sig jd lat lon hsys flags).2.2.2.1 ∧
    quantizes (1/10^8) lon (houses_sid_key sig jd lat lon hsys flags).2.2.2.2.1 ∧
    quantizes (1/10^9) jd (rise_set_drik_key sig jd body rise ephe rsmi lon lat).2.2.1 ∧
    quantizes (1/10^6) lon
      (rise_set_drik_key sig jd body rise ephe rsmi lon lat).2.2.2.2.2.2.2.1 ∧
    quantizes (1/10^6) lat
      (rise_set_drik_key sig jd body rise ephe rsmi lon lat).2.2.2.2.2.2.2.2.1 ∧
    quantizes (1/10^6) lon
      (rise_set_disc_key sig jd body rise ephe rsmi lon lat alt p t).2.2.2.2.2.2.2.1.1 ∧
    quantizes (1/10^6) lat
      (rise_set_disc_key sig jd body rise ephe rsmi lon lat alt p t).2.2.2.2.2.2.2.1.2.1 ∧
    quantizes (1/10^1) alt
      (rise_set_disc_key sig jd body rise ephe rsmi lon lat alt p t).2.2.2.2.2.2.2.1.2.2 ∧
    quantizes (1/10^2) p
      (rise_set_disc_key sig jd body rise ephe rsmi lon lat alt p t).2.2.2.2.2.2.2.2.1 ∧
    quantizes (1/10^2) t
      (rise_set_disc_key sig jd body rise ephe rsmi lon lat alt p t).2.2.2.2.2.2.2.2.2 :=
  ⟨round_to_quantizes 9 jd, round_to_quantizes 9 jd, round_to_quantizes 9 jd,
   round_to_quantizes 8 lat, round_to_quantizes 8 lon,
   round_to_quantizes 8 lat, round_to_quantizes 8 lon,
   round_to_quantizes 9 jd, round_to_quantizes 6 lon, round_to_quantizes 6 lat,
   round_to_quantizes 6 lon, round_to_quantizes 6 lat, round_to_quantizes 1 alt,
   round_to_quantizes 2 p, round_to_quantizes 2 t⟩

/-! ## Solver lemmas -/

/-- A successful forward scan returns an ordered pair which is either an
exact zero hit (`a = b`) or a sign-change bracket with nonzero signs at
both ends. -/
theorem bracket_scan_ok (f : ValueSpeedFn) (e s : ℚ) (hs : 0 < s) :
    ∀ (fuel : ℕ) (x : ℚ) (sa : ℤ) (a b : ℚ),
      sa = _sign (f x).1 → sa ≠ 0 →
      bracket_scan f e s fuel x sa = .ok (a, b) →
      a ≤ b ∧ ((a = b ∧ _sign (f a).1 = 0) ∨
        (_sign (f a).1 ≠ 0 ∧ _sign (f b).1 ≠ 0 ∧
          _sign (f a).1 ≠ _sign (f b).1)) := by
  intro fuel
  induction fuel with
  | zero => intro x sa a b _ _ h; cases h
  | succ n ih =>
    intro x sa a b hsa hsa0 h
    simp only [bracket_scan] at h
    split_ifs at h with h1 h2 h3
    · -- sb = 0 : exact hit (nx, nx)
      rw [Except.ok.injEq, Prod.mk.injEq] at h
      obtain ⟨rfl, rfl⟩ := h
      exact ⟨le_refl _, Or.inl ⟨rfl, h2⟩⟩
    · -- sign change : (x, nx)
      rw [Except.ok.injEq, Prod.mk.injEq] at h
      obtain ⟨rfl, rfl⟩ := h
      refine ⟨le_min (by linarith) h1.le, Or.inr ⟨?_, h2, ?_⟩⟩
      · rw [← hsa]; exact hsa0
      · rw [← hsa]; exact h3
    · -- same sign : continue the scan
      exact ih _ _ a b rfl h2 h

/-- A successful `bracket_root` returns an ordered pair; when it is a
proper bracket (`a ≠ b`), `f` has nonzero, opposite signs at its ends. -/
theorem bracket_root_ok {f : ValueSpeedFn} {start e s a b : ℚ}
    (h : bracket_root f start e s = .ok (a, b)) :
    a ≤ b ∧ (a ≠ b →
      _sign (f a).1 ≠ 0 ∧ _sign (f b).1 ≠ 0 ∧
        _sign (f a).1 ≠ _sign (f b).1) := by
  simp only [bracket_root] at h
  split_ifs at h with h1 h2 h3
  · -- exact zero at the start point
    rw [Except.ok.injEq, Prod.mk.injEq] at h
    obtain ⟨rfl, rfl⟩ := h
    exact ⟨le_refl _, fun hne => absurd rfl hne⟩
  · have := bracket_scan_ok f e s (by linarith [not_le.mp h2]) _ start _ a b
      rfl h3 h
    rcases this with ⟨hab, hz | hsig⟩
    · exact ⟨hab, fun hne => absurd hz.1 hne⟩
    · exact ⟨hab, fun _ => hsig⟩

/-- The Newton loop only ever raises `NonConvergence`. -/
theorem newton_loop_error (f : ValueSpeedFn) (ab br : Option (ℚ × ℚ))
    (tol ms : ℚ) :
    ∀ (fuel it : ℕ) (x : ℚ) (er : SolverError),
      newton_loop f ab br tol ms fuel it x = .error er →
      er = .nonConvergence := by
  intro fuel
  induction fuel with
  | zero =>
    intro it x er h
    simp only [newton_loop, Except.error.injEq] at h
    exact h.symm
  | succ n ih =>
    intro it x er h
    simp only [newton_loop] at h
    split_ifs at h
    all_goals first
      | rfl
      | exact ih _ _ _ h
      | (simp only [Except.error.injEq] at h; exact h.symm)

/-- `newton_speed_assisted` only ever raises `NonConvergence`. -/
theorem newton_speed_assisted_error {f : ValueSpeedFn} {x0 : ℚ}
    {br : Option (ℚ × ℚ)} {tol ms : ℚ} {mi : ℕ} {er : SolverError}
    (h : newton_speed_assisted f x0 br tol ms mi = .error er) :
    er = .nonConvergence := by
  match br with
  | none => exact newton_loop_error f none none tol ms mi 1 x0 er h
  | some (a0, b0) =>
    simp only [newton_speed_assisted] at h
    exact newton_loop_error f _ _ tol ms mi 1 _ er h

/-- Bracketed Newton keeps every iterate inside `[a, b]` and so returns a
root within `tol` of the (sorted) bracket. -/
theorem newton_loop_bounds (f : ValueSpeedFn) (a b : ℚ) (br : Option (ℚ × ℚ))
    (tol ms : ℚ) (hab : a ≤ b) (htol : 0 ≤ tol) :
    ∀ (fuel it : ℕ) (x : ℚ) (r : SolveResult), a ≤ x → x ≤ b →
      newton_loop f (some (a, b)) br tol ms fuel it x = .ok r →
      a - tol ≤ r.root_jd ∧ r.root_jd ≤ b + tol := by
  intro fuel
  induction fuel with
  | zero => intro it x r _ _ h; cases h
  | succ n ih =>
    intro it x r hax hxb h
    simp only [newton_loop] at h
    split_ifs at h with h1 h2 h3 h4 h5
    · -- |v| ≤ 1e-14 : accept current x
      rw [Except.ok.injEq] at h
      subst h
      exact ⟨by dsimp only; linarith, by dsimp only; linarith⟩
    · -- |x' - x| ≤ tol : accept x' before clamping
      rw [Except.ok.injEq] at h
      subst h
      obtain ⟨hl, hr⟩ := abs_le.mp h3
      exact ⟨by dsimp only; linarith, by dsimp only; linarith⟩
    · -- clamp low, continue
      exact ih _ _ _ (le_refl a) hab h
    · -- clamp high, continue
      exact ih _ _ _ hab (le_refl b) h
    · -- inside bracket, continue
      exact ih _ _ _ (by linarith [not_lt.mp h4]) (by linarith [not_lt.mp h5]) h

/-- The bracketed entry point of `newton_speed_assisted` returns a root
within `tol` of the sorted bracket. -/
theorem newton_bracketed_bounds {f : ValueSpeedFn} {x0 a0 b0 tol ms : ℚ}
    {mi : ℕ} {r : SolveResult} (htol : 0 ≤ tol)
    (h : newton_speed_assisted f x0 (some (a0, b0)) tol ms mi = .ok r) :
    min a0 b0 - tol ≤ r.root_jd ∧ r.root_jd ≤ max a0 b0 + tol := by
  simp only [newton_speed_assisted] at h
  refine newton_loop_bounds f (min a0 b0) (max a0 b0) _ tol ms min_le_max htol
    mi 1 _ r ?_ ?_ h
  · split_ifs with hc1 hc2 <;> first | exact le_refl _ | exact min_le_max | linarith [not_lt.mp hc1]
  · split_ifs with hc1 hc2 <;> first | exact le_refl _ | exact min_le_max | linarith [not_lt.mp hc2]

/-- The bisection loop never leaves `[a, b]`. -/
theorem bisect_loop_bounds (f : ValueSpeedFn) (tol a b : ℚ) :
    ∀ (fuel it : ℕ) (lo hi : ℚ) (slo : ℤ), a ≤ lo → lo ≤ hi → hi ≤ b →
      a ≤ (bisect_loop f tol a b fuel it lo hi slo).root_jd ∧
      (bisect_loop f tol a b fuel it lo hi slo).root_jd ≤ b := by
  intro fuel
  induction fuel with
  | zero =>
    intro it lo hi slo h1 h2 h3
    simp only [bisect_loop]
    exact ⟨by linarith, by linarith⟩
  | succ n ih =>
    intro it lo hi slo h1 h2 h3
    simp only [bisect_loop]
    split_ifs with hg hm hs
    · exact ⟨by dsimp only; linarith, by dsimp only; linarith⟩
    · exact ih (it + 1) _ hi slo (by linarith) (by linarith) h3
    · exact ih (it + 1) lo _ slo h1 (by linarith) (by linarith)
    · exact ⟨by dsimp only; linarith, by dsimp only; linarith⟩

/-- A successful `bisection` returns a root inside the (sorted) interval. -/
theorem bisection_ok_bounds {f : ValueSpeedFn} {a0 b0 tol : ℚ} {cap : ℕ}
    {r : SolveResult} (h : bisection f a0 b0 tol cap = .ok r) :
    min a0 b0 ≤ r.root_jd ∧ r.root_jd ≤ max a0 b0 := by
  simp only [bisection] at h
  split_ifs at h with h1 h2 h3
  · rw [Except.ok.injEq] at h; subst h
    exact ⟨le_refl _, min_le_max⟩
  · rw [Except.ok.injEq] at h; subst h
    exact ⟨min_le_max, le_refl _⟩
  · rw [Except.ok.injEq] at h; subst h
    exact bisect_loop_bounds f tol _ _ cap 0 _ _ _ (le_refl _) min_le_max
      (le_refl _)

/-- With opposite signs at the (sorted) endpoints, `bisection` cannot
raise: it always returns a result. -/
theorem bisection_total {f : ValueSpeedFn} {a0 b0 tol : ℚ} {cap : ℕ}
    (h : _sign (f (min a0 b0)).1 ≠ _sign (f (max a0 b0)).1) :
    ∃ r, bisection f a0 b0 tol cap = .ok r := by
  simp only [bisection]
  split_ifs with h1 h2
  · exact ⟨_, rfl⟩
  · exact ⟨_, rfl⟩
  · exact ⟨_, rfl⟩

/-- **C1 counterexample.** With `f(x) = (9/10 - x², -2x)` on `[0, 1]`,
scan step 1, `accuracy_seconds = 86400` (`tol_days = 1`) and
`newton_max_iter = 1`, the scan returns the proper bracket `(0, 1)` but
`solve_root` returns the first Newton iterate `23/20`, outside `[0, 1]`:
the accepted Newton step `x' = x - v/s` with `|x' - x| ≤ tol_days` is
returned *before* the clamping. -/
theorem solve_root_escapes_bracket :
    solve_root (fun x => (9/10 - x^2, -(2*x))) 0 1 86400 1 1 80 (1/10^10)
      = .ok ⟨23/20, "newton", 1, some (0, 1)⟩ ∧ ¬((23 : ℚ)/20 ≤ 1) := by
  constructor
  · norm_num [solve_root, bracket_root, bracket_scan, newton_speed_assisted,
      newton_loop, _sign, abs]
  · norm_num

/-- **C1 (amended).** If the forward scan produces a proper bracket
`[a, b]` (`a ≠ b`), every root returned by `solve_root` lies in the
`tol_days`-neighbourhood `[a - tol_days, b + tol_days]` of the bracket
(`tol_days = accuracy_seconds/86400`): Newton iterates are clamped into
`[a, b]`, but an accepted step within `tol_days` of its (clamped)
predecessor is returned unclamped, so the root can escape the bracket by
at most `tol_days`; the bisection path stays inside `[a, b]`. -/
theorem solve_root_near_bracket (f : ValueSpeedFn)
    (start e step acc ms : ℚ) (nmax bmax : ℕ) (a b : ℚ) (r : SolveResult)
    (hacc : 0 ≤ acc)
    (hb : bracket_root f start e step = .ok (a, b))
    (hne : a ≠ b)
    (hr : solve_root f start e acc step nmax bmax ms = .ok r) :
    a - acc / 86400 ≤ r.root_jd ∧ r.root_jd ≤ b + acc / 86400 := by
  have hab := (bracket_root_ok hb).1
  have htol : (0:ℚ) ≤ acc / 86400 := by positivity
  simp only [solve_root, hb] at hr
  rw [if_neg hne] at hr
  cases hN : newton_speed_assisted f ((a + b) / 2) (some (a, b)) (acc / 86400)
      ms nmax with
  | ok res =>
    rw [hN] at hr
    simp only [Except.ok.injEq] at hr
    subst hr
    have hbd := newton_bracketed_bounds htol hN
    rw [min_eq_left hab, max_eq_right hab] at hbd
    exact hbd
  | error er =>
    rw [hN] at hr
    have her := newton_speed_assisted_error hN
    subst her
    have hbd := bisection_ok_bounds hr
    rw [min_eq_left hab, max_eq_right hab] at hbd
    exact ⟨by linarith [hbd.1], by linarith [hbd.2]⟩

/-- Closed witness for `solve_root_near_bracket`: `f(x) = (x - 1/2, 1)` on
`[0, 1]` brackets to `(0, 1)` and Newton accepts the root `1/2`. -/
theorem solve_root_near_bracket_witness :
    (0 : ℚ) - (1/2) / 86400 ≤ (SolveResult.mk (1/2) "newton" 1 (some (0, 1))).root_jd ∧
    (SolveResult.mk (1/2) "newton" 1 (some (0, 1))).root_jd ≤ 1 + (1/2) / 86400 :=
  solve_root_near_bracket (fun x => (x - 1/2, 1)) 0 1 1 (1/2) (1/10^10) 20 80 0 1
    ⟨1/2, "newton", 1, some (0, 1)⟩
    (by norm_num)
    (by norm_num [bracket_root, bracket_scan, _sign])
    (by norm_num)
    (by norm_num [solve_root, bracket_root, bracket_scan, newton_speed_assisted,
      newton_loop, _sign, abs])

/-- **C2.** When bracketing succeeds with a proper bracket (`a ≠ b`),
`solve_root` always returns a value: any `NonConvergence` (the only error
Newton can raise) is converted into the bisection result on `[a, b]`, and
the bisection loop at an exhausted iteration budget returns the final
midpoint `(lo + hi)/2` instead of raising. -/
theorem solve_root_total (f : ValueSpeedFn)
    (start e step acc ms : ℚ) (nmax bmax : ℕ) (a b : ℚ)
    (hb : bracket_root f start e step = .ok (a, b))
    (hne : a ≠ b) :
    (∃ r, solve_root f start e acc step nmax bmax ms = .ok r) ∧
    (∀ er, newton_speed_assisted f ((a + b) / 2) (some (a, b)) (acc / 86400)
        ms nmax = .error er →
      solve_root f start e acc step nmax bmax ms
        = bisection f a b (acc / 86400) bmax) ∧
    (∀ (it : ℕ) (lo hi : ℚ) (slo : ℤ),
      bisect_loop f (acc / 86400) a b 0 it lo hi slo
        = ⟨(lo + hi) / 2, "bisection", it, some (a, b)⟩) := by
  have hab := bracket_root_ok hb
  have hsig : _sign (f (min a b)).1 ≠ _sign (f (max a b)).1 := by
    rw [min_eq_left hab.1, max_eq_right hab.1]
    exact (hab.2 hne).2.2
  refine ⟨?_, ?_, fun it lo hi slo => rfl⟩
  · simp only [solve_root, hb]
    rw [if_neg hne]
    cases hN : newton_speed_assisted f ((a + b) / 2) (some (a, b)) (acc / 86400)
        ms nmax with
    | ok res => exact ⟨_, rfl⟩
    | error er =>
      have her := newton_speed_assisted_error hN
      subst her
      exact bisection_total hsig
  · intro er hN
    have her := newton_speed_assisted_error hN
    subst her
    simp only [solve_root, hb]
    rw [if_neg hne, hN]

/-- Closed witness for `solve_root_total` at `f(x) = (x - 1/2, 1)`,
bracket `(0, 1)`. -/
theorem solve_root_total_witness :
    (∃ r, solve_root (fun x => (x - 1/2, 1)) 0 1 (1/2) 1 20 80 (1/10^10) = .ok r) ∧
    (∀ er, newton_speed_assisted (fun x => (x - 1/2, 1)) ((0 + 1) / 2)
        (some (0, 1)) ((1/2) / 86400) (1/10^10) 20 = .error er →
      solve_root (fun x => (x - 1/2, 1)) 0 1 (1/2) 1 20 80 (1/10^10)
        = bisection (fun x => (x - 1/2, 1)) 0 1 ((1/2) / 86400) 80) ∧
    (∀ (it : ℕ) (lo hi : ℚ) (slo : ℤ),
      bisect_loop (fun x => (x - 1/2, 1)) ((1/2) / 86400) 0 1 0 it lo hi slo
        = ⟨(lo + hi) / 2, "bisection", it, some (0, 1)⟩) :=
  solve_root_total (fun x => (x - 1/2, 1)) 0 1 1 (1/2) (1/10^10) 20 80 0 1
    (by norm_num [bracket_root, bracket_scan, _sign])
    (by norm_num)

/-! ## Event-finder wiring (`finder.py`) -/

/-- The residual of spec §4.I for tithi, written from the spec's words:
sample at `t₀`, `target = ⌊curr⌋ + 1`, period 30, cycle-unwrap rule
`if target ≥ period and val < period/2: val += period`, residual
`(val - target, speed)`. -/
def spec_tithi_residual (provider : Provider) (t0 : ℚ) : ValueSpeedFn :=
  fun jd =>
    let curr := (tithi_continuous (provider t0 MOON).1 (provider t0 MOON).2
      (provider t0 SUN).1 (provider t0 SUN).2).1
    let target : ℚ := (⌊curr⌋ : ℚ) + 1
    let val := (tithi_continuous (provider jd MOON).1 (provider jd MOON).2
      (provider jd SUN).1 (provider jd SUN).2).1
    let speed := (tithi_continuous (provider jd MOON).1 (provider jd MOON).2
      (provider jd SUN).1 (provider jd SUN).2).2
    ((if 30 ≤ target ∧ val < 30 / 2 then val + 30 else val) - target, speed)

/-- The residual of spec §4.I for nakshatra (Moon only, period 27). -/
def spec_nakshatra_residual (provider : Provider) (t0 : ℚ) : ValueSpeedFn :=
  fun jd =>
    let curr := (nakshatra_continuous (provider t0 MOON).1
      (provider t0 MOON).2).1
    let target : ℚ := (⌊curr⌋ : ℚ) + 1
    let val := (nakshatra_continuous (provider jd MOON).1
      (provider jd MOON).2).1
    let speed := (nakshatra_continuous (provider jd MOON).1
      (provider jd MOON).2).2
    ((if 27 ≤ target ∧ val < 27 / 2 then val + 27 else val) - target, speed)

/-- The residual of spec §4.I for yoga (Moon + Sun, period 27). -/
def spec_yoga_residual (provider : Provider) (t0 : ℚ) : ValueSpeedFn :=
  fun jd =>
    let curr := (yoga_continuous (provider t0 MOON).1 (provider t0 MOON).2
      (provider t0 SUN).1 (provider t0 SUN).2).1
    let target : ℚ := (⌊curr⌋ : ℚ) + 1
    let val := (yoga_continuous (provider jd MOON).1 (provider jd MOON).2
      (provider jd SUN).1 (provider jd SUN).2).1
    let speed := (yoga_continuous (provider jd MOON).1 (provider jd MOON).2
      (provider jd SUN).1 (provider jd SUN).2).2
    ((if 27 ≤ target ∧ val < 27 / 2 then val + 27 else val) - target, speed)

/-- **C4.** With default parameters each finder samples at `t₀`, sets
`target = ⌊curr⌋ + 1` (period 30 for tithi, 27 for nakshatra and yoga),
applies the cycle-unwrap rule to the residual, and calls the root solver
on `[t₀, t₀ + max_days_ahead]` with `accuracy_seconds = 0.1`,
`scan_step_days = 1/12`, `max_days_ahead = 1.5` (tithi) resp. `1.3`
(nakshatra, yoga), and the solver defaults
`newton_max_iter = 20`, `bisection_max_iter = 80`, `min_speed = 1e-10`. -/
theorem finder_wiring (provider : Provider) (t0 : ℚ) :
    next_tithi_end provider t0 none
      = solve_root (spec_tithi_residual provider t0) t0 (t0 + 3/2) (1/10)
          (1/12) 20 80 (1/10^10) ∧
    next_nakshatra_end provider t0 none
      = solve_root (spec_nakshatra_residual provider t0) t0 (t0 + 13/10)
          (1/10) (1/12) 20 80 (1/10^10) ∧
    next_yoga_end provider t0 none
      = solve_root (spec_yoga_residual provider t0) t0 (t0 + 13/10) (1/10)
          (1/12) 20 80 (1/10^10) :=
  ⟨rfl, rfl, rfl⟩

/-! ## Inverse Lagrange: which check really fires (`interpolation.py`) -/

/-- **C5 (amended).** After node selection, the exact-hit short-circuit and
the duplicate-`y` check, `inverse_lagrange` computes the weights
`wᵢ = 1/Πⱼ≠ᵢ(yᵢ - yⱼ)` *unconditionally*: no test is made on the weight
products, and the only ill-conditioned failure is the final test on the
barycentric denominator — the result is the `ZeroDivisionError`
(ill-conditioned) failure exactly when `|den| ≤ ε`, else `num/den`. -/
theorem inverse_lagrange_only_denominator_check
    (xs ys : List ℚ) (yt eps : ℚ) (mp : ℕ)
    (hlen : xs.length = ys.length)
    (h2 : 2 ≤ xs.length)
    (hk : xs.length ≤ max 2 mp)
    (hhit : ∀ p ∈ xs.zip ys, ¬ |yt - p.2| ≤ eps)
    (hdup : ∀ i j : ℕ, i < j → j < ys.length →
      ¬ |ys.getD i 0 - ys.getD j 0| ≤ eps) :
    inverse_lagrange xs ys yt mp eps
      = if |bary_den ys yt| ≤ eps then .error .zeroDivisionError
        else .ok (bary_num xs ys yt / bary_den ys yt) := by
  have hfind : (xs.zip ys).find? (fun p => decide (|yt - p.2| ≤ eps)) = none := by
    apply List.find?_eq_none.mpr
    intro p hp
    simpa using hhit p hp
  have hdup' : has_near_duplicate ys eps = false := by
    unfold has_near_duplicate
    rw [List.any_eq_false]
    intro i hi
    rw [Bool.not_eq_true, List.any_eq_false]
    intro j hj
    simp only [Bool.and_eq_true, decide_eq_true_eq, not_and]
    intro hij
    exact hdup i j hij (List.mem_range.mp hj)
  simp only [inverse_lagrange]
  rw [if_neg (by simp [hlen]), if_neg (by omega), if_neg (by omega), hfind,
    hdup']
  simp

/-- Closed witness for `inverse_lagrange_only_denominator_check` at
`xs = [0, 1]`, `ys = [0, 1]`, `y_target = 1/2`, defaults
`max_points = 5`, `ε = 10⁻¹⁰`. -/
theorem inverse_lagrange_only_denominator_check_witness :
    inverse_lagrange [0, 1] [0, 1] (1/2) 5 (1/10^10)
      = if |bary_den [0, 1] (1/2)| ≤ 1/10^10 then .error .zeroDivisionError
        else .ok (bary_num [0, 1] [0, 1] (1/2) / bary_den [0, 1] (1/2)) :=
  inverse_lagrange_only_denominator_check [0, 1] [0, 1] (1/2) (1/10^10) 5
    rfl (by norm_num) (by norm_num)
    (by intro p hp; fin_cases hp <;> norm_num [abs])
    (by
      intro i j hij hj
      simp only [List.length_cons, List.length_nil] at hj
      interval_cases j
      · omega
      · interval_cases i
        norm_num [abs])

/-- **C5 counterexample.** With `ys = [0, 10⁻⁵, 2·10⁻⁵]` the weight
product for node 1 is `(10⁻⁵)·(-10⁻⁵) = -10⁻¹⁰`, whose magnitude is at
(not above) the default `ε = 10⁻¹⁰`; yet `inverse_lagrange` raises
nothing and returns the value `1/2` — there is no `IllConditioned`
failure on weight-product underflow. -/
theorem weight_underflow_returns_value :
    |lagrange_weight_denom [0, 1/100000, 1/50000] 1| ≤ 1/10^10 ∧
    inverse_lagrange [0, 1, 2] [0, 1/100000, 1/50000] (1/200000) 5 (1/10^10)
      = .ok (1/2) := by
  constructor
  · norm_num [lagrange_weight_denom, List.range_succ, abs]
  · have hfind : (([0, 1, 2] : List ℚ).zip ([0, 1/100000, 1/50000] : List ℚ)).find?
        (fun p => decide (|(1/200000 : ℚ) - p.2| ≤ 1/10^10)) = none := by
      apply List.find?_eq_none.mpr
      intro p hp
      fin_cases hp <;> norm_num [abs]
    have hdup' : has_near_duplicate [0, 1/100000, 1/50000] (1/10^10) = false := by
      norm_num [has_near_duplicate, List.range_succ, abs]
    simp only [inverse_lagrange]
    rw [if_neg (by norm_num), if_neg (by norm_num), if_neg (by norm_num),
      hfind, hdup']
    norm_num [bary_den, bary_num, lagrange_weight_denom, List.range_succ, abs]
